import Mathlib

/-!
Shallow embedding of `src/pypot/dynamixel/conversion.py`.

Numeric model: Python ints and floats are modelled by `ℤ`/`ℕ`/`ℚ`; the
decimal literals of the source (`0.088`, `0.00269`, ...) are read as exact
rationals, i.e. the conversion formulas are treated as the exact contracts
they denote.  Python `round(x, n)` and `numpy.round` use banker's rounding
(round half to even), modelled by `roundHalfEven`/`pyRound`; Python `int(x)`
truncates toward zero, modelled by `truncInt`; Python `//` is floor division.
Functions that raise (`ValueError`, `KeyError`) are modelled as returning
`Option` values, with `none` standing for the raised error.
-/

/-- Round half to even: the rounding mode of Python `round` and `numpy.round`. -/
def roundHalfEven (q : ℚ) : ℤ :=
  if q - ⌊q⌋ < 1/2 then ⌊q⌋
  else if 1/2 < q - ⌊q⌋ then ⌊q⌋ + 1
  else if ⌊q⌋ % 2 = 0 then ⌊q⌋ else ⌊q⌋ + 1

/-- Python `round(q, ndigits)` (exact-rational model of float rounding). -/
def pyRound (q : ℚ) (ndigits : ℕ) : ℚ :=
  (roundHalfEven (q * 10 ^ ndigits) : ℚ) / 10 ^ ndigits

/-- Python `int(q)`: truncation toward zero. -/
def truncInt (q : ℚ) : ℤ :=
  if q < 0 then ⌈q⌉ else ⌊q⌋

/-- Python `model.startswith(pre)`, i.e. string prefix test
(`conversion.py` dispatches on model families this way). -/
def startswith (model pre : String) : Bool :=
  pre.data.isPrefixOf model.data

/-- The `position_range` dict of `conversion.py` (lines 25-31): keys
`MX`, `SR`, `EX`, `XM`, `*`; the final else-branch is the `*` entry
(the only key reachable besides the four tested ones). -/
def position_range (family : String) : ℕ × ℚ :=
  if family = "MX" then (4096, 360)
  else if family = "SR" then (4096, 360)
  else if family = "EX" then (4096, 251)
  else if family = "XM" then (4096, 360)
  else (1024, 300)

/-- The `determined_model` elif-chain shared by `dxl_to_degree` and
`degree_to_dxl` (lines 65-73 and 80-88). -/
def determinedModel (model : String) : String :=
  if startswith model "MX" then "MX"
  else if startswith model "SR" then "SR"
  else if startswith model "EX" then "EX"
  else if startswith model "XM" then "XM"
  else "*"

/-- `dxl_to_degree(value, model)` (lines 64-76):
`round(((max_deg * float(value)) / (max_pos - 1)) - (max_deg / 2), 2)`. -/
def dxl_to_degree (value : ℕ) (model : String) : ℚ :=
  pyRound ((position_range (determinedModel model)).2 * (value : ℚ) /
      (((position_range (determinedModel model)).1 : ℚ) - 1) -
      (position_range (determinedModel model)).2 / 2) 2

/-- `degree_to_dxl(value, model)` (lines 79-94):
`pos = int(round((max_pos - 1) * ((max_deg / 2 + float(value)) / max_deg), 0))`
then `pos = min(max(pos, 0), max_pos - 1)`. -/
def degree_to_dxl (value : ℚ) (model : String) : ℤ :=
  min
    (max (truncInt (pyRound ((((position_range (determinedModel model)).1 : ℚ) - 1) *
        (((position_range (determinedModel model)).2 / 2 + value) /
          (position_range (determinedModel model)).2)) 0)) 0)
    (((position_range (determinedModel model)).1 : ℤ) - 1)

/-- `dxl_to_multi_degree(value, model)` (lines 96-103): subtract `2^32`
when `value > 4294967296/2` (strict), then multiply by `0.088`. -/
def dxl_to_multi_degree (value : ℕ) (model : String) : ℚ :=
  0.088 * (if (4294967296 : ℚ)/2 < (value : ℚ) then (value : ℚ) - 4294967296
           else (value : ℚ))

/-- `multi_degree_to_dxl(value, model)` (lines 105-113): divide by `0.088`,
add `2^32` for negative inputs, then `int(numpy.round(numpy.clip(pos, 0, 4294967296)))`
(note: the clip upper bound `4294967296` is inclusive). -/
def multi_degree_to_dxl (value : ℚ) (model : String) : ℤ :=
  truncInt (pyRound
    (min (max (if value < 0 then 4294967296 + value / 0.088 else value / 0.088) 0)
      4294967296) 0)

/-- `dxl_to_torque(value, model)` (lines 155-160): XM models use
`round(value*0.00269*1.66, 1)`, all others `round(value / 10, 1)`. -/
def dxl_to_torque (value : ℚ) (model : String) : ℚ :=
  if startswith model "XM" then pyRound (value * 0.00269 * 1.66) 1
  else pyRound (value / 10) 1

/-- `torque_to_dxl(value, model)` (lines 163-164): `int(round(value * 10, 0))`,
with no model dispatch. -/
def torque_to_dxl (value : ℚ) (model : String) : ℤ :=
  truncInt (pyRound (value * 10) 0)

/-- The earlier `dxl_to_ms` (lines 175-179): factor 20 only for XM models.
This binding is shadowed by the later module-level definition on line 313,
so it is not the effective `dxl_to_ms` of the module. -/
def dxl_to_ms_shadowed (value : ℚ) (model : String) : ℚ :=
  (if startswith model "XM" then (20 : ℚ) else 1) * value

/-- The earlier `ms_to_dxl` (lines 180-184): `value//time_factor` (floor
division) with factor 20 only for XM models.  Shadowed by line 310. -/
def ms_to_dxl_shadowed (value : ℚ) (model : String) : ℚ :=
  (⌊value / (if startswith model "XM" then (20 : ℚ) else 1)⌋ : ℤ)

/-- The effective `ms_to_dxl` (lines 310-311, the later module-level binding,
which in Python shadows lines 180-184): `int(value/20)` for every model. -/
def ms_to_dxl (value : ℚ) (model : String) : ℤ :=
  truncInt (value / 20)

/-- The effective `dxl_to_ms` (lines 313-314, the later module-level binding,
which in Python shadows lines 175-179): `value*20` for every model. -/
def dxl_to_ms (value : ℚ) (model : String) : ℚ :=
  value * 20

/-- The `dynamixelBaudrates` dict (lines 266-277), in insertion order.
The source line `4: 400000.0,-` continues onto the next line, so the fourth
key is `-16` (not `16`), mapped to `117647.1`. -/
def dynamixelBaudrates : List (ℤ × ℚ) :=
  [(1, 1000000.0), (3, 500000.0), (4, 400000.0), (-16, 117647.1),
   (34, 57600.0), (103, 19230.8), (207, 9615.4), (250, 2250000.0),
   (251, 2500000.0), (252, 3000000.0)]

/-- The `XL-320` entry of `dynamixelBaudratesWithModel` (lines 279-286). -/
def dynamixelBaudratesXL320 : List (ℤ × ℚ) :=
  [(0, 9600.0), (1, 57600.0), (2, 115200.0), (3, 1000000.0)]

/-- `dynamixelBaudratesWithModel.get(model, dynamixelBaudrates)`: the only
key of `dynamixelBaudratesWithModel` is `XL-320`. -/
def currentBaudrates (model : String) : List (ℤ × ℚ) :=
  if model = "XL-320" then dynamixelBaudratesXL320 else dynamixelBaudrates

/-- Python dict lookup (`KeyError` modelled as `none`): first entry whose
key equals the requested one. -/
def lookupBaudrate (key : ℤ) : List (ℤ × ℚ) → Option ℚ
  | [] => none
  | kv :: rest => if kv.1 = key then some kv.2 else lookupBaudrate key rest

/-- `dxl_to_baudrate(value, model)` (lines 289-290). -/
def dxl_to_baudrate (value : ℤ) (model : String) : Option ℚ :=
  lookupBaudrate value (currentBaudrates model)

/-- The search loop of `baudrate_to_dxl` (lines 295-297): return the first
key whose rate satisfies `abs(v - value) / float(value) < 0.05`; falling off
the loop raises `ValueError`, modelled as `none`. -/
def findBaudrate (value : ℚ) : List (ℤ × ℚ) → Option ℤ
  | [] => none
  | kv :: rest => if |kv.2 - value| / value < 0.05 then some kv.1
                  else findBaudrate value rest

/-- `baudrate_to_dxl(value, model)` (lines 293-298). -/
def baudrate_to_dxl (value : ℚ) (model : String) : Option ℤ :=
  findBaudrate value (currentBaudrates model)

/-- The `dynamixelErrors` list (lines 367-374). -/
def dynamixelErrors : List String :=
  ["None Error", "Instruction Error", "Overload Error", "Checksum Error",
   "Range Error", "Overheating Error", "Angle Limit Error",
   "Input Voltage Error"]

/-- `decode_error(error_code)` (lines 381-383): `numpy.unpackbits` of the
code cast to `uint8` lists the 8 bits MSB-first, and the names whose bit is
set are selected in order. -/
def decode_error (error_code : ℕ) : List String :=
  ((List.range 8).filter fun j => error_code % 256 / 2 ^ (7 - j) % 2 == 1).map
    fun j => dynamixelErrors.getD j ""

/-- `dxl_to_alarm(value, model)` (lines 377-378). -/
def dxl_to_alarm (value : ℕ) (model : String) : List String :=
  decode_error value

/-- `alarm_to_dxl(value, model)` (lines 386-391): raises (`none`) unless
every name is a known error; otherwise sums `2**(len - 1 - index(e))`. -/
def alarm_to_dxl (value : List String) (model : String) : Option ℕ :=
  if value.all fun e => dynamixelErrors.contains e then
    some ((value.map fun e =>
      2 ^ (dynamixelErrors.length - 1 - dynamixelErrors.indexOf e)).sum)
  else none

/-- `dxl_decode(data)` (lines 435-452): raises (`none`) on empty input, else
accumulates `data[i] << (8*i)`. -/
def dxl_decode (data : List ℕ) : Option ℕ :=
  if data.length = 0 then none
  else some (∑ i ∈ Finset.range data.length, data.getD i 0 <<< (8 * i))

/-- `dxl_code(value, length)` (lines 462-477): raises (`none`) when
`length <= 0`, else returns the `length` bytes `(value >> (8*i)) % 256`. -/
def dxl_code (value : ℕ) (length : ℤ) : Option (List ℕ) :=
  if length ≤ 0 then none
  else some ((List.range length.toNat).map fun i => value >>> (8 * i) % 256)

/-! ### Properties of the rounding helpers -/

theorem rhe_sub_abs (q : ℚ) : |(roundHalfEven q : ℚ) - q| ≤ 1/2 := by
  have h0 : (⌊q⌋ : ℚ) ≤ q := Int.floor_le q
  have h1 : q < (⌊q⌋ : ℚ) + 1 := Int.lt_floor_add_one q
  rw [roundHalfEven]
  split_ifs with hf hg he
  · rw [abs_le]; constructor <;> linarith
  · rw [abs_le]; push_cast; constructor <;> linarith
  · rw [abs_le]
    have : q - (⌊q⌋ : ℚ) = 1/2 := le_antisymm (not_lt.mp hg) (not_lt.mp hf)
    constructor <;> linarith
  · rw [abs_le]
    have : q - (⌊q⌋ : ℚ) = 1/2 := le_antisymm (not_lt.mp hg) (not_lt.mp hf)
    push_cast
    constructor <;> linarith

theorem rhe_eq_of_abs_lt (m : ℤ) (q : ℚ) (h : |q - (m : ℚ)| < 1/2) :
    roundHalfEven q = m := by
  have h1 := rhe_sub_abs q
  have h2 : |((roundHalfEven q - m : ℤ) : ℚ)| < 1 := by
    push_cast
    calc |(roundHalfEven q : ℚ) - (m : ℚ)|
        ≤ |(roundHalfEven q : ℚ) - q| + |q - (m : ℚ)| := abs_sub_le _ _ _
      _ < 1/2 + 1/2 := by apply add_lt_add_of_le_of_lt h1 h
      _ = 1 := by norm_num
  have h3 : |roundHalfEven q - m| < 1 := by exact_mod_cast h2
  have h4 : roundHalfEven q - m = 0 := Int.abs_lt_one_iff.mp h3
  omega

theorem rhe_intCast (n : ℤ) : roundHalfEven (n : ℚ) = n := by
  apply rhe_eq_of_abs_lt
  simp

theorem rhe_bounds (lo hi : ℤ) (q : ℚ) (hlo : (lo : ℚ) ≤ q) (hhi : q ≤ (hi : ℚ)) :
    lo ≤ roundHalfEven q ∧ roundHalfEven q ≤ hi := by
  have h := abs_le.mp (rhe_sub_abs q)
  constructor
  · have hc : ((lo - 1 : ℤ) : ℚ) < (roundHalfEven q : ℚ) := by push_cast; linarith [h.1]
    have hc2 : lo - 1 < roundHalfEven q := by exact_mod_cast hc
    omega
  · have hc : (roundHalfEven q : ℚ) < ((hi + 1 : ℤ) : ℚ) := by push_cast; linarith [h.2]
    have hc2 : roundHalfEven q < hi + 1 := by exact_mod_cast hc
    omega

theorem truncInt_intCast (n : ℤ) : truncInt (n : ℚ) = n := by
  rw [truncInt]
  split_ifs <;> simp

theorem int_pyRound0 (q : ℚ) : truncInt (pyRound q 0) = roundHalfEven q := by
  rw [pyRound]
  norm_num
  exact truncInt_intCast _

theorem pyRound2_sub_abs (q : ℚ) : |pyRound q 2 - q| ≤ 1/200 := by
  have h := rhe_sub_abs (q * 10 ^ 2)
  rw [pyRound]
  have hq : (roundHalfEven (q * 10 ^ 2) : ℚ) / 10 ^ 2 - q
      = ((roundHalfEven (q * 10 ^ 2) : ℚ) - q * 10 ^ 2) / 10 ^ 2 := by ring
  rw [hq, abs_div]
  rw [show |(10 : ℚ) ^ 2| = 100 by norm_num]
  rw [div_le_iff₀ (by norm_num)]
  calc |(roundHalfEven (q * 10 ^ 2) : ℚ) - q * 10 ^ 2| ≤ 1/2 := h
    _ = 1/200 * 100 := by norm_num

/-! ### C1: the later time-conversion pair is the effective one -/

/-- C1: for every model name (XM or not) and every value, the effective
time conversion is the later-defined pair of `conversion.py`: `dxl_to_ms`
multiplies by 20 and `ms_to_dxl` truncates `value/20` toward zero, with no
family dispatch; the earlier family-dependent pair (`dxl_to_ms_shadowed`,
`ms_to_dxl_shadowed`) is shadowed and differs from it on non-XM models
(factor) and on negative XM inputs (floor vs truncation). -/
theorem C1_effective_time_conversion :
    (∀ (v : ℚ) (m : String), dxl_to_ms v m = v * 20) ∧
    (∀ (t : ℚ) (m : String), ms_to_dxl t m = truncInt (t / 20)) ∧
    dxl_to_ms_shadowed 3 "AX-12" = 3 ∧ dxl_to_ms 3 "AX-12" = 60 ∧
    ms_to_dxl_shadowed (-30) "XM-430" = -2 ∧ ms_to_dxl (-30) "XM-430" = -1 := by
  refine ⟨fun v m => rfl, fun t m => rfl, ?_, ?_, ?_, ?_⟩
  · have h : startswith "AX-12" "XM" = false := by decide
    rw [dxl_to_ms_shadowed, h]
    norm_num
  · rw [dxl_to_ms]; norm_num
  · have h : startswith "XM-430" "XM" = true := by decide
    rw [ms_to_dxl_shadowed, h]
    norm_num
  · rw [ms_to_dxl, truncInt, if_pos (by norm_num)]
    norm_num [Int.ceil_eq_iff]

/-! ### C10: the stray minus sign in the generic baud-rate table -/

/-- C10: the generic baud-rate table literal spills a minus sign onto the
next line, so its fourth key is `-16` (not `16`) with rate `117647.1`;
consequently `baudrate_to_dxl(117647.1, '*')` returns the negative code
`-16`, and `dxl_to_baudrate(16, '*')` raises `KeyError` (modelled `none`)
even though 16 is the hardware code for 117647.1 baud. -/
theorem C10_baudrate_stray_minus :
    lookupBaudrate (-16) dynamixelBaudrates = some 117647.1 ∧
    lookupBaudrate 16 dynamixelBaudrates = none ∧
    baudrate_to_dxl 117647.1 "*" = some (-16) ∧
    dxl_to_baudrate 16 "*" = none := by
  have hcur : currentBaudrates "*" = dynamixelBaudrates := by
    rw [currentBaudrates, if_neg (by decide)]
  refine ⟨?_, ?_, ?_, ?_⟩
  · rw [dynamixelBaudrates]
    norm_num [lookupBaudrate]
  · rw [dynamixelBaudrates]
    norm_num [lookupBaudrate]
  · rw [baudrate_to_dxl, hcur, dynamixelBaudrates]
    norm_num [findBaudrate, abs_of_pos]
  · rw [dxl_to_baudrate, hcur, dynamixelBaudrates]
    norm_num [lookupBaudrate]

/-! ### Byte codec lemmas -/

theorem dxl_code_getD (v L i : ℕ) (hi : i < L) :
    ((List.range L).map fun j => v >>> (8 * j) % 256).getD i 0 = v >>> (8 * i) % 256 := by
  rw [List.getD_eq_getElem?_getD, List.getElem?_map, List.getElem?_range hi]
  rfl

theorem code_decode_sum (v L : ℕ) :
    ∑ i ∈ Finset.range L, (v >>> (8 * i) % 256) <<< (8 * i) = v % 2 ^ (8 * L) := by
  induction L with
  | zero => simp [Nat.mod_one]
  | succ n ih =>
      rw [Finset.sum_range_succ, ih, Nat.shiftLeft_eq, Nat.shiftRight_eq_div_pow]
      rw [show 8 * (n + 1) = 8 * n + 8 by ring, pow_add]
      rw [Nat.mod_mul]
      rw [show ((2:ℕ) ^ 8 = 256) by norm_num]
      ring

/-! ### C7: error conditions and byte layout of the codec -/

/-- C7: `dxl_decode` fails (raises `InvalidInput`, modelled `none`) exactly
on the empty byte list; `dxl_code` fails exactly when `length <= 0`; for
`length >= 1` it returns exactly `length` bytes with byte `i` equal to
`(value >> (8*i)) mod 256`, silently truncating oversized values — in
particular `dxl_code 300 1` yields the single byte `44`. -/
theorem C7_codec_error_conditions :
    (∀ data : List ℕ, dxl_decode data = none ↔ data = []) ∧
    (∀ (v : ℕ) (l : ℤ), dxl_code v l = none ↔ l ≤ 0) ∧
    (∀ (v : ℕ) (l : ℤ), 1 ≤ l → ∃ bs, dxl_code v l = some bs ∧
      bs.length = l.toNat ∧ ∀ i, i < l.toNat → bs.getD i 0 = v >>> (8 * i) % 256) ∧
    dxl_code 300 1 = some [44] := by
  refine ⟨?_, ?_, ?_, ?_⟩
  · intro data
    rw [dxl_decode]
    split_ifs with h
    · simp [List.length_eq_zero.mp h]
    · rw [List.length_eq_zero] at h
      simp [h]
  · intro v l
    rw [dxl_code]
    split_ifs with h
    · simp [h]
    · simp [h]
  · intro v l hl
    refine ⟨(List.range l.toNat).map fun j => v >>> (8 * j) % 256, ?_, ?_, ?_⟩
    · rw [dxl_code, if_neg (by omega)]
    · simp
    · intro i hi
      exact dxl_code_getD v l.toNat i hi
  · rfl

/-- Witness for C7 at `v = 5`, `l = 2`. -/
theorem C7_codec_error_conditions_witness :
    (1 : ℤ) ≤ 2 ∧ ∃ bs, dxl_code 5 2 = some bs ∧
      bs.length = (2 : ℤ).toNat ∧
      ∀ i, i < (2 : ℤ).toNat → bs.getD i 0 = 5 >>> (8 * i) % 256 :=
  ⟨by norm_num, C7_codec_error_conditions.2.2.1 5 2 (by norm_num)⟩

/-! ### C9: byte-codec round trip -/

/-- C9 (implicit): for every `length >= 1` and nonnegative `value`,
decoding the bytes of `dxl_code value length` recovers
`value mod 2^(8*length)`; in particular the round trip is the identity
whenever `value < 2^(8*length)`. -/
theorem C9_codec_roundtrip :
    ∀ (v : ℕ) (l : ℤ), 1 ≤ l →
      (dxl_code v l).bind dxl_decode = some (v % 2 ^ (8 * l.toNat)) ∧
      (v < 2 ^ (8 * l.toNat) → (dxl_code v l).bind dxl_decode = some v) := by
  intro v l hl
  have hL : 1 ≤ l.toNat := by omega
  have hmain : (dxl_code v l).bind dxl_decode = some (v % 2 ^ (8 * l.toNat)) := by
    rw [dxl_code, if_neg (by omega), Option.some_bind, dxl_decode]
    rw [if_neg (by simp; omega)]
    congr 1
    rw [List.length_map, List.length_range]
    calc ∑ i ∈ Finset.range l.toNat,
          ((List.range l.toNat).map fun j => v >>> (8 * j) % 256).getD i 0 <<< (8 * i)
        = ∑ i ∈ Finset.range l.toNat, (v >>> (8 * i) % 256) <<< (8 * i) := by
          apply Finset.sum_congr rfl
          intro i hi
          rw [dxl_code_getD v l.toNat i (Finset.mem_range.mp hi)]
      _ = v % 2 ^ (8 * l.toNat) := code_decode_sum v l.toNat
  exact ⟨hmain, fun hv => by rw [hmain, Nat.mod_eq_of_lt hv]⟩

/-- Witness for C9 at `v = 300`, `l = 1`: the round trip truncates 300 to 44. -/
theorem C9_codec_roundtrip_witness :
    (1 : ℤ) ≤ 1 ∧ (dxl_code 300 1).bind dxl_decode = some (300 % 2 ^ (8 * (1 : ℤ).toNat)) :=
  ⟨by norm_num, (C9_codec_roundtrip 300 1 (by norm_num)).1⟩

/-! ### C2: multi-turn decode uses a strict threshold at 2^31 -/

/-- C2 counterexample: at `raw = 2^31` the claimed two's-complement
reinterpretation would give `0.088 * (2^31 - 2^32)`, but the code's strict
comparison `value > 4294967296/2` leaves `2^31` unshifted. -/
theorem C2_counterexample :
    ¬ (dxl_to_multi_degree 2147483648 "MX-28" =
        0.088 * ((2147483648 : ℚ) - 4294967296)) := by
  rw [dxl_to_multi_degree, if_neg (by push_cast; norm_num)]
  push_cast
  norm_num

/-- C2 (amended): `dxl_to_multi_degree` reinterprets with a strict
threshold: raw values strictly above `2^31` give `0.088 * (raw - 2^32)`,
which is negative, while raw values up to and including `2^31` give
`0.088 * raw`, which is nonnegative (so `raw = 2^31` itself is not mapped
to a negative angle); in particular
`dxl_to_multi_degree 4294967295 m = -0.088`. -/
theorem C2_multi_degree_strict_threshold :
    ∀ (model : String) (raw : ℕ), raw < 4294967296 →
      (2147483648 < raw →
        dxl_to_multi_degree raw model = 0.088 * ((raw : ℚ) - 4294967296) ∧
        dxl_to_multi_degree raw model < 0) ∧
      (raw ≤ 2147483648 →
        dxl_to_multi_degree raw model = 0.088 * (raw : ℚ) ∧
        0 ≤ dxl_to_multi_degree raw model) ∧
      dxl_to_multi_degree 4294967295 model = -0.088 := by
  intro model raw hraw
  refine ⟨?_, ?_, ?_⟩
  · intro h
    have hc : (4294967296 : ℚ)/2 < (raw : ℚ) := by
      have h2 : (2147483648 : ℚ) < (raw : ℚ) := by exact_mod_cast h
      linarith
    rw [dxl_to_multi_degree, if_pos hc]
    refine ⟨rfl, ?_⟩
    have hc2 : (raw : ℚ) < 4294967296 := by exact_mod_cast hraw
    exact mul_neg_of_pos_of_neg (by norm_num) (by linarith)
  · intro h
    have hc : ¬ ((4294967296 : ℚ)/2 < (raw : ℚ)) := by
      have h2 : (raw : ℚ) ≤ 2147483648 := by exact_mod_cast h
      linarith
    rw [dxl_to_multi_degree, if_neg hc]
    exact ⟨rfl, mul_nonneg (by norm_num) (Nat.cast_nonneg raw)⟩
  · rw [dxl_to_multi_degree, if_pos (by push_cast; norm_num)]
    push_cast
    norm_num

/-- Witness for C2 at `raw = 4294967295`. -/
theorem C2_multi_degree_strict_threshold_witness :
    (4294967295 : ℕ) < 4294967296 ∧ (2147483648 : ℕ) < 4294967295 ∧
    dxl_to_multi_degree 4294967295 "MX-28" =
      0.088 * (((4294967295 : ℕ) : ℚ) - 4294967296) ∧
    dxl_to_multi_degree 4294967295 "MX-28" < 0 :=
  ⟨by norm_num, by norm_num,
   ((C2_multi_degree_strict_threshold "MX-28" 4294967295 (by norm_num)).1
      (by norm_num)).1,
   ((C2_multi_degree_strict_threshold "MX-28" 4294967295 (by norm_num)).1
      (by norm_num)).2⟩

/-! ### C3: multi-turn encode clips to the closed range [0, 2^32] -/

/-- C3 counterexample: the clip upper bound is `2^32` inclusive, so large
positive angles encode to the out-of-range raw value `4294967296`; the
claimed half-open range `[0, 2^32)` does not hold. -/
theorem C3_counterexample :
    multi_degree_to_dxl 1000000000 "MX-28" = 4294967296 ∧
    ¬ (multi_degree_to_dxl 1000000000 "MX-28" < 4294967296) := by
  have h : multi_degree_to_dxl 1000000000 "MX-28" = 4294967296 := by
    rw [multi_degree_to_dxl, int_pyRound0, if_neg (by norm_num)]
    rw [max_eq_left (by norm_num), min_eq_right (by norm_num)]
    rw [show (4294967296 : ℚ) = ((4294967296 : ℤ) : ℚ) by norm_num, rhe_intCast]
  exact ⟨h, by rw [h]; omega⟩

/-- C3 (amended): `multi_degree_to_dxl` computes `value/0.088`, adds `2^32`
when `value` is negative, clips to the closed range `[0, 2^32]` (the upper
bound `2^32` included) and rounds; the result always lies in `[0, 2^32]`
(and can equal `2^32`, so the claimed half-open range `[0, 2^32)` is off by
one at the top); in particular `multi_degree_to_dxl (-0.088) m = 4294967295`. -/
theorem C3_multi_degree_encode_closed_clip :
    ∀ (value : ℚ) (model : String),
      (value < 0 → multi_degree_to_dxl value model =
        roundHalfEven (min (max (4294967296 + value / 0.088) 0) 4294967296)) ∧
      (0 ≤ value → multi_degree_to_dxl value model =
        roundHalfEven (min (max (value / 0.088) 0) 4294967296)) ∧
      (0 ≤ multi_degree_to_dxl value model ∧
        multi_degree_to_dxl value model ≤ 4294967296) ∧
      multi_degree_to_dxl (-0.088) model = 4294967295 := by
  intro value model
  refine ⟨?_, ?_, ?_, ?_⟩
  · intro h
    rw [multi_degree_to_dxl, int_pyRound0, if_pos h]
  · intro h
    rw [multi_degree_to_dxl, int_pyRound0, if_neg (not_lt.mpr h)]
  · rw [multi_degree_to_dxl, int_pyRound0]
    refine rhe_bounds 0 4294967296 _ ?_ ?_
    · push_cast
      exact le_min (le_max_right _ _) (by norm_num)
    · push_cast
      exact min_le_right _ _
  · rw [multi_degree_to_dxl, int_pyRound0, if_pos (by norm_num)]
    rw [show (4294967296 : ℚ) + -0.088 / 0.088 = 4294967295 by norm_num]
    rw [max_eq_left (by norm_num), min_eq_left (by norm_num)]
    rw [show (4294967295 : ℚ) = ((4294967295 : ℤ) : ℚ) by norm_num, rhe_intCast]

/-- Witness for C3 at `value = -0.088`. -/
theorem C3_multi_degree_encode_closed_clip_witness :
    (-0.088 : ℚ) < 0 ∧
    multi_degree_to_dxl (-0.088) "MX-28" =
      roundHalfEven (min (max ((4294967296 : ℚ) + (-0.088) / 0.088) 0) 4294967296) :=
  ⟨by norm_num,
   (C3_multi_degree_encode_closed_clip (-0.088) "MX-28").1 (by norm_num)⟩

/-! ### C6: asymmetric torque conversion -/

/-- C6: torque decoding branches on the model family
(`round(raw*0.00269*1.66, 1)` for XM, `round(raw/10, 1)` otherwise), while
torque encoding is `int(round(value * 10))` for every model — it has no
XM-specific branch, so it is independent of the model argument. -/
theorem C6_torque_asymmetry :
    (∀ (value : ℚ) (model : String), startswith model "XM" = true →
      dxl_to_torque value model =
        (roundHalfEven (value * 0.00269 * 1.66 * 10) : ℚ) / 10) ∧
    (∀ (value : ℚ) (model : String), startswith model "XM" = false →
      dxl_to_torque value model = (roundHalfEven (value / 10 * 10) : ℚ) / 10) ∧
    (∀ (value : ℚ) (m1 m2 : String), torque_to_dxl value m1 = torque_to_dxl value m2) ∧
    (∀ (value : ℚ) (model : String),
      torque_to_dxl value model = roundHalfEven (value * 10)) := by
  refine ⟨?_, ?_, fun v m1 m2 => rfl, ?_⟩
  · intro v m h
    rw [dxl_to_torque, if_pos h, pyRound]
    norm_num
  · intro v m h
    rw [dxl_to_torque, if_neg (by simp [h]), pyRound]
    norm_num
  · intro v m
    rw [torque_to_dxl, int_pyRound0]

/-- Witness for C6 at an XM and a non-XM model. -/
theorem C6_torque_asymmetry_witness :
    startswith "XM-430" "XM" = true ∧ startswith "MX-28" "XM" = false ∧
    dxl_to_torque 100 "XM-430" =
      (roundHalfEven ((100 : ℚ) * 0.00269 * 1.66 * 10) : ℚ) / 10 ∧
    dxl_to_torque 100 "MX-28" = (roundHalfEven ((100 : ℚ) / 10 * 10) : ℚ) / 10 :=
  ⟨by decide, by decide,
   C6_torque_asymmetry.1 100 "XM-430" (by decide),
   C6_torque_asymmetry.2.1 100 "MX-28" (by decide)⟩

/-! ### C5: tolerant baud-rate encoding -/

theorem findBaudrate_eq_find? (v : ℚ) (l : List (ℤ × ℚ)) :
    findBaudrate v l =
      (l.find? fun kv => decide (|kv.2 - v| / v < 0.05)).map Prod.fst := by
  induction l with
  | nil => rfl
  | cons kv rest ih =>
      rw [findBaudrate, List.find?]
      by_cases h : |kv.2 - v| / v < 0.05
      · simp [h]
      · simp [h, ih]

/-- C5: `baudrate_to_dxl` returns the first code of the applicable table
whose tabulated rate is within 5% relative error of the requested value
(`abs(rate - value)/value < 0.05`), and fails (`LookupFailure`, modelled
`none`) exactly when no entry is within tolerance; in particular
`baudrate_to_dxl 1000000.5 "*" = some 1` and `baudrate_to_dxl 1.0 "*"`
fails.  (The positivity hypothesis on the requested value excludes `0`,
where Python would instead raise `ZeroDivisionError`.) -/
theorem C5_baudrate_tolerant_encode :
    baudrate_to_dxl 1000000.5 "*" = some 1 ∧
    baudrate_to_dxl 1.0 "*" = none ∧
    ∀ (v : ℚ) (m : String), 0 < v →
      (baudrate_to_dxl v m =
        ((currentBaudrates m).find? fun kv =>
          decide (|kv.2 - v| / v < 0.05)).map Prod.fst) ∧
      ((baudrate_to_dxl v m = none) ↔
        ∀ kv ∈ currentBaudrates m, ¬ (|kv.2 - v| / v < 0.05)) := by
  have hcur : currentBaudrates "*" = dynamixelBaudrates := by
    rw [currentBaudrates, if_neg (by decide)]
  refine ⟨?_, ?_, ?_⟩
  · rw [baudrate_to_dxl, hcur, dynamixelBaudrates]
    rw [findBaudrate, if_pos (by rw [abs_of_neg (by norm_num)]; norm_num)]
  · rw [baudrate_to_dxl, hcur, dynamixelBaudrates]
    norm_num [findBaudrate, abs_of_pos]
  · intro v m hv
    constructor
    · rw [baudrate_to_dxl]
      exact findBaudrate_eq_find? v (currentBaudrates m)
    · rw [baudrate_to_dxl, findBaudrate_eq_find?]
      simp [List.find?_eq_none]

/-- Witness for C5 on the XL-320 table at 57600 baud. -/
theorem C5_baudrate_tolerant_encode_witness :
    (0 : ℚ) < 57600 ∧
    baudrate_to_dxl 57600 "XL-320" =
      ((currentBaudrates "XL-320").find? fun kv =>
        decide (|kv.2 - 57600| / 57600 < 0.05)).map Prod.fst :=
  ⟨by norm_num,
   (C5_baudrate_tolerant_encode.2.2 57600 "XL-320" (by norm_num)).1⟩

/-! ### C8: alarm bitmask round trip -/

set_option maxRecDepth 100000 in
theorem alarm_to_dxl_perm (L1 L2 : List String) (m : String) (h : L1.Perm L2) :
    alarm_to_dxl L1 m = alarm_to_dxl L2 m := by
  rw [alarm_to_dxl, alarm_to_dxl]
  have hall : (L1.all fun e => dynamixelErrors.contains e)
      = (L2.all fun e => dynamixelErrors.contains e) := by
    rw [Bool.eq_iff_iff]
    simp only [List.all_eq_true]
    exact ⟨fun ha e he => ha e (h.mem_iff.mpr he),
           fun ha e he => ha e (h.mem_iff.mp he)⟩
  rw [hall]
  split_ifs with hb
  · exact congrArg some ((h.map _).sum_eq)
  · rfl

/-- C8: for every subset S of the 8 named dynamixel errors, encoding with
`alarm_to_dxl` (sum of `2^(7 - index)` over the selected names) and decoding
with `dxl_to_alarm` (MSB-first bit unpacking) returns exactly the names of S:
the encoder is model- and order-independent (so any listing of the subset
encodes alike), and for each of the 256 canonical sublists of
`dynamixelErrors` the round trip reproduces the subset exactly. -/
theorem C8_alarm_roundtrip :
    (∀ (v : List String) (m1 m2 : String), alarm_to_dxl v m1 = alarm_to_dxl v m2) ∧
    (∀ (L1 L2 : List String) (m : String), L1.Perm L2 →
      alarm_to_dxl L1 m = alarm_to_dxl L2 m) ∧
    ∀ L ∈ dynamixelErrors.sublists,
      Option.map (fun n => (dxl_to_alarm n "MX").toFinset) (alarm_to_dxl L "MX")
        = some L.toFinset := by
  refine ⟨fun v m1 m2 => rfl, fun L1 L2 m h => alarm_to_dxl_perm L1 L2 m h, ?_⟩
  set_option maxRecDepth 100000 in decide

/-- Witness for C8: a two-element subset listed in both orders. -/
theorem C8_alarm_roundtrip_witness :
    ["Overload Error", "None Error"].Perm ["None Error", "Overload Error"] ∧
    alarm_to_dxl ["Overload Error", "None Error"] "MX"
      = alarm_to_dxl ["None Error", "Overload Error"] "MX" ∧
    ["None Error", "Overload Error"] ∈ dynamixelErrors.sublists ∧
    Option.map (fun n => (dxl_to_alarm n "MX").toFinset)
        (alarm_to_dxl ["None Error", "Overload Error"] "MX")
      = some (["None Error", "Overload Error"].toFinset) :=
  ⟨by decide, C8_alarm_roundtrip.2.1 _ _ "MX" (by decide),
   by set_option maxRecDepth 100000 in decide,
   C8_alarm_roundtrip.2.2 ["None Error", "Overload Error"]
     (by set_option maxRecDepth 100000 in decide)⟩

/-! ### C4: single-turn position round trip -/

theorem position_range_cases (model : String) :
    position_range (determinedModel model) = (4096, (360 : ℚ)) ∨
    position_range (determinedModel model) = (4096, (251 : ℚ)) ∨
    position_range (determinedModel model) = (1024, (300 : ℚ)) := by
  rw [determinedModel]
  split_ifs <;> first
    | (left; rfl)
    | (right; left; rfl)
    | (right; right; rfl)

theorem pos_roundtrip_aux (mp : ℕ) (md : ℚ) (h2 : 2 ≤ mp) (hmd : 0 < md)
    (hb : (mp : ℚ) - 1 < 100 * md) (raw : ℕ) (hraw : raw < mp) (d : ℚ)
    (hd : |d - (md * (raw : ℚ) / ((mp : ℚ) - 1) - md / 2)| ≤ 1/200) :
    min (max (roundHalfEven (((mp : ℚ) - 1) * ((md / 2 + d) / md))) 0)
      ((mp : ℤ) - 1) = (raw : ℤ) := by
  have h2q : (2 : ℚ) ≤ (mp : ℚ) := by exact_mod_cast h2
  have hN : (0 : ℚ) < (mp : ℚ) - 1 := by linarith
  have hNe : ((mp : ℚ) - 1) ≠ 0 := ne_of_gt hN
  have hmdne : md ≠ 0 := ne_of_gt hmd
  have hkey : ((mp : ℚ) - 1) * ((md / 2 + d) / md) - (raw : ℚ)
      = ((mp : ℚ) - 1) * (d - (md * (raw : ℚ) / ((mp : ℚ) - 1) - md / 2)) / md := by
    field_simp
    ring
  have hdel : |((mp : ℚ) - 1) * (d - (md * (raw : ℚ) / ((mp : ℚ) - 1) - md / 2)) / md|
      < 1/2 := by
    rw [abs_div, abs_mul, abs_of_pos hmd, abs_of_pos hN, div_lt_iff₀ hmd]
    calc ((mp : ℚ) - 1) * |d - (md * (raw : ℚ) / ((mp : ℚ) - 1) - md / 2)|
        ≤ ((mp : ℚ) - 1) * (1/200) := mul_le_mul_of_nonneg_left hd (le_of_lt hN)
      _ < (100 * md) * (1/200) := mul_lt_mul_of_pos_right hb (by norm_num)
      _ = 1/2 * md := by ring
  have hrnd : roundHalfEven (((mp : ℚ) - 1) * ((md / 2 + d) / md)) = (raw : ℤ) := by
    apply rhe_eq_of_abs_lt
    have hc : ((mp : ℚ) - 1) * ((md / 2 + d) / md) - (((raw : ℤ) : ℚ))
        = ((mp : ℚ) - 1) * (d - (md * (raw : ℚ) / ((mp : ℚ) - 1) - md / 2)) / md := by
      push_cast
      exact hkey
    rw [hc]
    exact hdel
  rw [hrnd]
  have hr0 : (0 : ℤ) ≤ (raw : ℤ) := Int.natCast_nonneg raw
  have hr1 : (raw : ℤ) ≤ (mp : ℤ) - 1 := by
    have hlt : (raw : ℤ) < (mp : ℤ) := by exact_mod_cast hraw
    omega
  rw [max_eq_left hr0, min_eq_left hr1]

/-- C4: for every model family and every raw tick in the clamped domain
`[0, max_ticks - 1]` of that family's position range, encoding the decoded
angle returns the original raw value: the 2-decimal rounding of
`dxl_to_degree` perturbs the angle by at most `0.005` degrees, which is
under half a tick for every family, so `degree_to_dxl` rounds back exactly. -/
theorem C4_position_roundtrip (model : String) (raw : ℕ)
    (h : raw < (position_range (determinedModel model)).1) :
    degree_to_dxl (dxl_to_degree raw model) model = (raw : ℤ) := by
  rw [degree_to_dxl, dxl_to_degree, int_pyRound0]
  rcases position_range_cases model with hpr | hpr | hpr <;>
    rw [hpr] at h ⊢ <;> dsimp only at h ⊢
  · exact pos_roundtrip_aux 4096 360 (by norm_num) (by norm_num)
      (by push_cast; norm_num) raw h _ (pyRound2_sub_abs _)
  · exact pos_roundtrip_aux 4096 251 (by norm_num) (by norm_num)
      (by push_cast; norm_num) raw h _ (pyRound2_sub_abs _)
  · exact pos_roundtrip_aux 1024 300 (by norm_num) (by norm_num)
      (by push_cast; norm_num) raw h _ (pyRound2_sub_abs _)

/-- Witness for C4 at `model = "MX-28"`, `raw = 1000`. -/
theorem C4_position_roundtrip_witness :
    1000 < (position_range (determinedModel "MX-28")).1 ∧
    degree_to_dxl (dxl_to_degree 1000 "MX-28") "MX-28" = (1000 : ℤ) :=
  ⟨by decide, C4_position_roundtrip "MX-28" 1000 (by decide)⟩
